import Mathlib

/-!
Verification development for the CCC (code container CLI) repository.

Each definition is a shallow embedding of a function of the repository:
the firewall allowlist compiler (`src/templates/firewall.ts`), the host
spec validator and target resolver (`src/config.ts`), the local/remote
command executors (`src/deploy/executor.ts`) and the container status
reconciliation (`ContainerManager` in `src/config.ts`).

JavaScript string primitives (`split`, `trim`, `startsWith`, regex tests
over a character class) are embedded as structural functions over
`String.data`, so every definition evaluates by kernel reduction.
-/

deriving instance DecidableEq for Except

namespace CCC

/-! ### JavaScript string primitives -/

/-- `String.prototype.split(sep)` for a one-character separator (the
source only splits on `"@"` and `"\n"`): splitting the empty string gives
`[""]`, a separator at either end contributes an empty field. -/
def splitChar (sep : Char) : List Char → List (List Char)
  | [] => [[]]
  | c :: cs =>
    let r := splitChar sep cs
    if c = sep then [] :: r
    else
      match r with
      | [] => [[c]]
      | h :: t => (c :: h) :: t

/-- `s.split(sep)` for a one-character separator. -/
def jsSplit (sep : Char) (s : String) : List String :=
  (splitChar sep s.data).map (fun l => ⟨l⟩)

/-- `String.prototype.trim()`: strip leading and trailing whitespace. -/
def jsTrim (s : String) : String :=
  ⟨((s.data.dropWhile Char.isWhitespace).reverse.dropWhile Char.isWhitespace).reverse⟩

/-- `String.prototype.startsWith(pre)`. -/
def jsStartsWith (s pre : String) : Bool :=
  pre.data.isPrefixOf s.data

/-- `line.split(/\s+/)[0]`: the leading run of non-whitespace characters
(empty when the line starts with whitespace, exactly as the JavaScript
split yields a leading empty field there). -/
def jsFirstWsToken (line : String) : String :=
  ⟨line.data.takeWhile (fun c => !c.isWhitespace)⟩

/-- `cmd.replace(/"/g, '\\"')`: escape every double quote. -/
def escapeQuoteChars : List Char → List Char
  | [] => []
  | c :: cs =>
    if c = '"' then '\\' :: '"' :: escapeQuoteChars cs
    else c :: escapeQuoteChars cs

/-- `cmd.replace(/"/g, '\\"')` on strings. -/
def escapeDoubleQuotes (s : String) : String :=
  ⟨escapeQuoteChars s.data⟩

/-- Code-unit-wise lexicographic comparison of two character lists. -/
def lexLeChars : List Char → List Char → Bool
  | [], _ => true
  | _ :: _, [] => false
  | a :: as, b :: bs =>
    if a.val < b.val then true
    else if b.val < a.val then false
    else lexLeChars as bs

/-- Lexicographic `≤` on strings. -/
def strLe (a b : String) : Bool :=
  lexLeChars a.data b.data

/-- A list of strings is in lexicographically sorted order. -/
def sortedStr : List String → Bool
  | [] => true
  | [_] => true
  | a :: b :: t => strLe a b && sortedStr (b :: t)

/-! ### Firewall allowlist compiler (`src/templates/firewall.ts`) -/

/-- The slice of an agent definition that the firewall compiler reads
(`src/agents/types.ts`: `name`, `firewallDomains`). -/
structure Agent where
  name : String
  firewallDomains : List String
deriving DecidableEq, Repr

/-- The slice of an extension definition that the firewall compiler reads
(`src/extensions/types.ts`: `name`, `type`, `firewallDomains`). -/
structure Extension where
  name : String
  type : String
  firewallDomains : List String
deriving DecidableEq, Repr

/-- `FirewallOptions` as used by `generateFirewall({agents, extensions, userDomains})`
in `src/deploy/files.ts` and `tests/templates.test.ts`. -/
structure FirewallOptions where
  agents : List Agent
  extensions : List Extension
  userDomains : List String
deriving DecidableEq, Repr

/-- One `Set.add` step of the JavaScript `Set<string>`: insertion-ordered,
a domain already present is not added again. -/
def addDomain (acc : List String) (d : String) : List String :=
  if d ∈ acc then acc else acc ++ [d]

/-- Modelled from the spec: the current `src/templates/firewall.ts` (the
three-source variant exercised by `tests/templates.test.ts` and called from
`src/deploy/files.ts`) is not under `src/`; only an older agents-only
variant survives (`unnamed/part_009`, `generateFirewall`).  Following the
spec's Domain Registry contract and the source's own merge pattern
(`allDomains = new Set<string>()` filled from each source in turn, as in
`unnamed/part_009` lines 158-164 and `unnamed/part_006` lines 1270-1277),
the merged domain list is the insertion-ordered de-duplicated union of
agent domains, then extension domains, then user domains. -/
def mergedDomains (o : FirewallOptions) : List String :=
  let fromAgents := o.agents.foldl (fun acc a => a.firewallDomains.foldl addDomain acc) []
  let fromExtensions := o.extensions.foldl (fun acc e => e.firewallDomains.foldl addDomain acc) fromAgents
  o.userDomains.foldl addDomain fromExtensions

/-- Lines of the generated firewall script before the spliced domain list
(`unnamed/part_009` lines 168-173, the template text up to the
`ALLOWED_DOMAINS="` splice point). -/
def firewallHeaderLines : List String :=
  [ "#!/bin/bash",
    "set -e",
    "",
    "# Firewall allowlist - domains agents need",
    "ALLOWED_DOMAINS=\"" ]

/-- Lines of the generated firewall script after the spliced domain list
(`unnamed/part_009` lines 175-216, the template text from the closing
quote of `ALLOWED_DOMAINS` to the end). -/
def firewallFooterLines : List String :=
  [ "\"",
    "",
    "# Create ipset for allowed IPs",
    "ipset create allowed_ips hash:ip -exist",
    "ipset flush allowed_ips",
    "",
    "# Resolve domains and add to ipset",
    "for domain in $ALLOWED_DOMAINS; do",
    "    ips=$(dig +short \"$domain\" A 2>/dev/null | grep -E '^[0-9]+\\.[0-9]+\\.[0-9]+\\.[0-9]+$' || true)",
    "    for ip in $ips; do",
    "        ipset add allowed_ips \"$ip\" -exist 2>/dev/null || true",
    "    done",
    "done",
    "",
    "# Setup iptables rules",
    "iptables -F OUTPUT 2>/dev/null || true",
    "",
    "# Allow loopback",
    "iptables -A OUTPUT -o lo -j ACCEPT",
    "",
    "# Allow established connections",
    "iptables -A OUTPUT -m state --state ESTABLISHED,RELATED -j ACCEPT",
    "",
    "# Allow DNS",
    "iptables -A OUTPUT -p udp --dport 53 -j ACCEPT",
    "iptables -A OUTPUT -p tcp --dport 53 -j ACCEPT",
    "",
    "# Allow SSH outbound (for git)",
    "iptables -A OUTPUT -p tcp --dport 22 -j ACCEPT",
    "",
    "# Allow HTTPS to allowed IPs",
    "iptables -A OUTPUT -p tcp --dport 443 -m set --match-set allowed_ips dst -j ACCEPT",
    "",
    "# Allow HTTP to allowed IPs (some registries)",
    "iptables -A OUTPUT -p tcp --dport 80 -m set --match-set allowed_ips dst -j ACCEPT",
    "",
    "# Log and drop everything else",
    "iptables -A OUTPUT -j LOG --log-prefix \"BLOCKED: \" --log-level 4",
    "iptables -A OUTPUT -j DROP",
    "",
    "echo \"Firewall initialized with allowed domains\"",
    "" ]

/-- The lines contributed by the `${domainList}` splice: one line per domain;
when the domain set is empty the splice still occupies one (empty) line,
since `Array.from(allDomains).join("\n")` is `""` between two newlines of
the template. -/
def domainSectionLines (ds : List String) : List String :=
  if ds.isEmpty then [""] else ds

/-- The generated firewall script as a list of lines, in order:
template header, spliced domain list, template footer. -/
def firewallScriptLines (o : FirewallOptions) : List String :=
  firewallHeaderLines ++ domainSectionLines (mergedDomains o) ++ firewallFooterLines

/-- `generateFirewall` (`unnamed/part_009` lines 156-216, extended to the
three sources per `mergedDomains`): the script text, a single string whose
newline-separated lines are `firewallScriptLines`. -/
def generateFirewall (o : FirewallOptions) : String :=
  String.intercalate "\n" (firewallScriptLines o)

/-- The appended packet-filter rules of a script, in order: the lines of
the form `iptables -A ...`. -/
def firewallRuleLines (lines : List String) : List String :=
  lines.filter (fun l => jsStartsWith l "iptables -A ")

/-- The nine baseline rules, in the fixed order the template emits them:
loopback, established/related, DNS over UDP 53 and TCP 53, outbound TCP 22,
TCP 443 to the allowed-IP set, TCP 80 to the allowed-IP set, then the log
rule and the drop rule. -/
def baselineRules : List String :=
  [ "iptables -A OUTPUT -o lo -j ACCEPT",
    "iptables -A OUTPUT -m state --state ESTABLISHED,RELATED -j ACCEPT",
    "iptables -A OUTPUT -p udp --dport 53 -j ACCEPT",
    "iptables -A OUTPUT -p tcp --dport 53 -j ACCEPT",
    "iptables -A OUTPUT -p tcp --dport 22 -j ACCEPT",
    "iptables -A OUTPUT -p tcp --dport 443 -m set --match-set allowed_ips dst -j ACCEPT",
    "iptables -A OUTPUT -p tcp --dport 80 -m set --match-set allowed_ips dst -j ACCEPT",
    "iptables -A OUTPUT -j LOG --log-prefix \"BLOCKED: \" --log-level 4",
    "iptables -A OUTPUT -j DROP" ]

theorem mem_addDomain (acc : List String) (x d : String) :
    d ∈ addDomain acc x ↔ d ∈ acc ∨ d = x := by
  unfold addDomain
  by_cases h : x ∈ acc
  · simp only [if_pos h]
    constructor
    · exact fun hd => Or.inl hd
    · rintro (hd | rfl)
      · exact hd
      · exact h
  · simp [if_neg h]

theorem mem_foldl_addDomain (l acc : List String) (d : String) :
    d ∈ l.foldl addDomain acc ↔ d ∈ acc ∨ d ∈ l := by
  induction l generalizing acc with
  | nil => simp
  | cons x xs ih =>
    simp only [List.foldl_cons, ih, mem_addDomain, List.mem_cons]
    tauto

theorem nodup_addDomain (acc : List String) (x : String) (h : acc.Nodup) :
    (addDomain acc x).Nodup := by
  unfold addDomain
  by_cases hx : x ∈ acc
  · simpa [if_pos hx] using h
  · simp only [if_neg hx]
    simpa [List.nodup_append] using ⟨h, fun hmem => hx hmem⟩

theorem nodup_foldl_addDomain (l acc : List String) (h : acc.Nodup) :
    (l.foldl addDomain acc).Nodup := by
  induction l generalizing acc with
  | nil => simpa
  | cons x xs ih => exact ih _ (nodup_addDomain _ _ h)

theorem mem_foldl_source {α : Type} (f : α → List String) (l : List α)
    (acc : List String) (d : String) :
    d ∈ l.foldl (fun acc x => (f x).foldl addDomain acc) acc ↔
      d ∈ acc ∨ ∃ x, x ∈ l ∧ d ∈ f x := by
  induction l generalizing acc with
  | nil => simp
  | cons x xs ih =>
    simp only [List.foldl_cons, ih, mem_foldl_addDomain, List.mem_cons]
    constructor
    · rintro ((hd | hd) | ⟨y, hy, hdy⟩)
      · exact Or.inl hd
      · exact Or.inr ⟨x, Or.inl rfl, hd⟩
      · exact Or.inr ⟨y, Or.inr hy, hdy⟩
    · rintro (hd | ⟨y, (rfl | hy), hdy⟩)
      · exact Or.inl (Or.inl hd)
      · exact Or.inl (Or.inr hdy)
      · exact Or.inr ⟨y, hy, hdy⟩

theorem nodup_foldl_source {α : Type} (f : α → List String) (l : List α)
    (acc : List String) (h : acc.Nodup) :
    (l.foldl (fun acc x => (f x).foldl addDomain acc) acc).Nodup := by
  induction l generalizing acc with
  | nil => simpa
  | cons x xs ih => exact ih _ (nodup_foldl_addDomain _ _ h)

theorem mem_mergedDomains (o : FirewallOptions) (d : String) :
    d ∈ mergedDomains o ↔
      (∃ a ∈ o.agents, d ∈ a.firewallDomains) ∨
      (∃ e ∈ o.extensions, d ∈ e.firewallDomains) ∨
      d ∈ o.userDomains := by
  unfold mergedDomains
  simp only [mem_foldl_addDomain, mem_foldl_source, List.not_mem_nil, false_or,
    or_assoc]

theorem nodup_mergedDomains (o : FirewallOptions) : (mergedDomains o).Nodup := by
  unfold mergedDomains
  exact nodup_foldl_addDomain _ _
    (nodup_foldl_source _ _ _ (nodup_foldl_source _ _ _ List.nodup_nil))

/-- C1: the allowlist spliced into the compiled firewall script is exactly
the set union of all sources' `firewallDomains` — every domain declared by
some agent, extension or user rule is in the merged list, nothing else is,
and no domain appears twice no matter how many sources declare it. -/
theorem generateFirewall_allowlist_is_union (o : FirewallOptions) :
    generateFirewall o =
      String.intercalate "\n"
        (firewallHeaderLines ++ domainSectionLines (mergedDomains o) ++ firewallFooterLines) ∧
    (mergedDomains o).Nodup ∧
    ∀ d, d ∈ mergedDomains o ↔
      (∃ a ∈ o.agents, d ∈ a.firewallDomains) ∨
      (∃ e ∈ o.extensions, d ∈ e.firewallDomains) ∨
      d ∈ o.userDomains := by
  refine ⟨rfl, nodup_mergedDomains o, fun d => mem_mergedDomains o d⟩

theorem firewallRuleLines_header : firewallRuleLines firewallHeaderLines = [] := by
  decide

theorem firewallRuleLines_footer : firewallRuleLines firewallFooterLines = baselineRules := by
  decide

theorem firewallRuleLines_append (a b : List String) :
    firewallRuleLines (a ++ b) = firewallRuleLines a ++ firewallRuleLines b := by
  unfold firewallRuleLines
  simp [List.filter_append]

theorem firewallRuleLines_domains (ds : List String)
    (h : ∀ d ∈ ds, jsStartsWith d "iptables -A " = false) :
    firewallRuleLines (domainSectionLines ds) = [] := by
  unfold domainSectionLines
  by_cases hds : ds.isEmpty
  · simp only [if_pos hds]
    decide
  · simp only [if_neg hds]
    unfold firewallRuleLines
    rw [List.filter_eq_nil_iff]
    intro d hd
    simp [h d hd]

/-- C2: for every domain set — the empty one included — the compiled
firewall script's appended packet-filter rules are exactly the nine
baseline rules in the fixed order: loopback, established/related, DNS on
UDP and TCP 53, outbound TCP 22, TCP 443 then TCP 80 to the resolved
allowed-IP set, and finally the log rule followed by the drop rule as the
last rules.  (The hypothesis only rules out degenerate domain strings that
themselves spell an iptables append rule.) -/
theorem generateFirewall_baseline_rules (o : FirewallOptions)
    (h : ∀ d ∈ mergedDomains o, jsStartsWith d "iptables -A " = false) :
    generateFirewall o = String.intercalate "\n" (firewallScriptLines o) ∧
    firewallRuleLines (firewallScriptLines o) = baselineRules := by
  refine ⟨rfl, ?_⟩
  unfold firewallScriptLines
  rw [firewallRuleLines_append, firewallRuleLines_append,
    firewallRuleLines_header, firewallRuleLines_domains (mergedDomains o) h,
    firewallRuleLines_footer]
  simp

/-- Witness for C2: the empty domain set (no agents, extensions or user
domains) and a populated one both compile to scripts whose rule section is
exactly the baseline rules. -/
theorem generateFirewall_baseline_rules_witness :
    firewallRuleLines (firewallScriptLines ⟨[], [], []⟩) = baselineRules ∧
    firewallRuleLines
      (firewallScriptLines ⟨[⟨"claude", ["api.anthropic.com"]⟩], [], ["custom.example.com"]⟩) =
      baselineRules :=
  ⟨(generateFirewall_baseline_rules ⟨[], [], []⟩ (by decide)).2,
   (generateFirewall_baseline_rules
      ⟨[⟨"claude", ["api.anthropic.com"]⟩], [], ["custom.example.com"]⟩ (by decide)).2⟩

/-- The concrete input refuting the sorted-order part of C7: one agent
declaring `registry.example.com` before `api.example.com` (the `agentA`
fixture of `tests/templates.test.ts`, domains swapped). -/
def c7Unsorted : FirewallOptions :=
  ⟨[⟨"alpha", ["registry.example.com", "api.example.com"]⟩], [], []⟩

/-- Counterexample to C7 as stated: the allowlist keeps first-declaration
order, not lexicographic order — an agent declaring
`registry.example.com` before `api.example.com` compiles to an allowlist
in exactly that order, which is not lexicographically sorted. -/
theorem generateFirewall_not_lex_sorted :
    mergedDomains c7Unsorted = ["registry.example.com", "api.example.com"] ∧
    sortedStr (mergedDomains c7Unsorted) = false ∧
    generateFirewall c7Unsorted =
      String.intercalate "\n"
        (firewallHeaderLines ++ ["registry.example.com", "api.example.com"] ++ firewallFooterLines) := by
  refine ⟨by decide, by decide, rfl⟩

/-- The scenario of C7: agent `claude` with `api.anthropic.com`, extension
`takopi` with `api.telegram.org`, user domain `custom.example.com`. -/
def c7Scenario : FirewallOptions :=
  ⟨[⟨"claude", ["api.anthropic.com"]⟩],
   [⟨"takopi", "host", ["api.telegram.org"]⟩],
   ["custom.example.com"]⟩

/-- C7 as amended: compiling is a pure function of the merged domain set
(equal domain sets give byte-identical scripts), the allowlist lists each
unique domain exactly once in first-declaration order (agents, then
extensions, then user domains — not lexicographically sorted in general),
and in the cited scenario that order is `api.anthropic.com`,
`api.telegram.org`, `custom.example.com`. -/
theorem generateFirewall_idempotent_insertion_order :
    (∀ o o' : FirewallOptions,
      mergedDomains o = mergedDomains o' → generateFirewall o = generateFirewall o') ∧
    (∀ o : FirewallOptions, (mergedDomains o).Nodup) ∧
    mergedDomains c7Scenario =
      ["api.anthropic.com", "api.telegram.org", "custom.example.com"] := by
  refine ⟨?_, nodup_mergedDomains, by decide⟩
  intro o o' h
  unfold generateFirewall firewallScriptLines
  rw [h]

/-- Witness for the amended C7: two distinct source configurations with
the same merged domain set compile to byte-identical scripts. -/
theorem generateFirewall_idempotent_insertion_order_witness :
    generateFirewall ⟨[⟨"alpha", ["x.example.com"]⟩], [], []⟩ =
      generateFirewall ⟨[], [], ["x.example.com"]⟩ :=
  generateFirewall_idempotent_insertion_order.1
    ⟨[⟨"alpha", ["x.example.com"]⟩], [], []⟩ ⟨[], [], ["x.example.com"]⟩ (by decide)

/-! ### Host spec validation and target resolution (`src/config.ts`) -/

/-- The character class of the user part, `/^[A-Za-z0-9._~-]+$/`
(`src/config.ts` line 28). -/
def userCharOk (c : Char) : Bool :=
  c.isAlphanum || c == '.' || c == '_' || c == '~' || c == '-'

/-- `HOSTNAME_PATTERN`, `/^[A-Za-z0-9._~:%\-[\]]+$/` (`src/config.ts` line 8). -/
def hostnameCharOk (c : Char) : Bool :=
  c.isAlphanum || c == '.' || c == '_' || c == '~' || c == ':' || c == '%' ||
    c == '-' || c == '[' || c == ']'

/-- `assertValidHost` (`src/config.ts` lines 10-37).  The source reports
the failure and calls `process.exit(1)`; the embedding returns the error
message instead.  An empty spec, more than one `@`, an empty or unsafe
user part, and an empty or out-of-class hostname are all rejected. -/
def assertValidHost (host : String) : Except String Unit :=
  if host = "" then .error "Invalid host: empty value"
  else
    match jsSplit '@' host with
    | [h] =>
      if h != "" && h.data.all hostnameCharOk then .ok ()
      else .error ("Invalid host: " ++ host)
    | [u, h] =>
      if u == "" || h == "" then .error ("Invalid host: " ++ host)
      else if !(u.data.all userCharOk) then .error ("Invalid host: " ++ host)
      else if !(h.data.all hostnameCharOk) then .error ("Invalid host: " ++ host)
      else .ok ()
    | _ => .error ("Invalid host: " ++ host)

/-- The spec's host-spec grammar, stated from its words (section 3,
`ExecutionTarget`): a spec is `[user@]host` with at most one `@`, a
nonempty user part over the safe character class, and a nonempty host part
over the hostname character class.  Second definition for the refinement
claim C5, to be compared with `assertValidHost`. -/
def hostSpecWellFormed (s : String) : Prop :=
  match jsSplit '@' s with
  | [h] => h ≠ "" ∧ h.data.all hostnameCharOk = true
  | [u, h] =>
    u ≠ "" ∧ u.data.all userCharOk = true ∧ h ≠ "" ∧ h.data.all hostnameCharOk = true
  | _ => False

/-- `RemoteConfig` (`src/config.ts`): `host` and the optional alias list. -/
structure RemoteConfig where
  host : String
  alias' : Option (List String)
deriving DecidableEq, Repr

/-- The slice of `Config` that `resolveTarget` reads: the default target
and the remote registry (`Object.entries` order kept as a list). -/
structure Config where
  default : String
  remotes : List (String × RemoteConfig)
deriving DecidableEq, Repr

/-- `if (!target) target = config.default` — a missing or empty target
falls back to the configured default. -/
def jsEffectiveTarget (cfg : Config) (target : Option String) : String :=
  match target with
  | none => cfg.default
  | some t => if t = "" then cfg.default else t

/-- The registry loop of `resolveTarget` (`src/config.ts` lines 104-115):
the first remote whose name or alias matches `aliasName` has its host
validated and returned; an exhausted registry reports `Unknown remote`
and exits (embedded as the error message). -/
def resolveInRemotes (target aliasName : String) :
    List (String × RemoteConfig) → Except String (Option String)
  | [] => .error ("Unknown remote: " ++ target)
  | (name, rc) :: rest =>
    if ("@" ++ name) == aliasName then
      match assertValidHost rc.host with
      | .error e => .error e
      | .ok _ => .ok (some rc.host)
    else if (rc.alias'.getD []).any
        (fun a => (if jsStartsWith a "@" then a else "@" ++ a) == aliasName) then
      match assertValidHost rc.host with
      | .error e => .error e
      | .ok _ => .ok (some rc.host)
    else resolveInRemotes target aliasName rest

/-- `resolveTarget` (`src/config.ts` lines 89-121): `.ok none` is the
local marker (the source's `null`), `.ok (some host)` a validated remote
host, `.error` a fatal report-and-exit. -/
def resolveTarget (cfg : Config) (target? : Option String) : Except String (Option String) :=
  let target := jsEffectiveTarget cfg target?
  if target == "local" then .ok none
  else if target.data.contains '@' && !(jsStartsWith target "@") then
    match assertValidHost target with
    | .error e => .error e
    | .ok _ => .ok (some target)
  else
    resolveInRemotes target (if jsStartsWith target "@" then target else "@" ++ target)
      cfg.remotes

/-- C5: the host-spec validator rejects `user@bad host`, accepts
`user@192.168.1.100` and `plainhost.example.com`, and accepts a spec
exactly when it is `[user@]host` with at most one `@`, the user part over
the safe character class and the host part over the hostname class. -/
theorem assertValidHost_grammar :
    assertValidHost "user@bad host" = .error "Invalid host: user@bad host" ∧
    assertValidHost "user@192.168.1.100" = .ok () ∧
    assertValidHost "plainhost.example.com" = .ok () ∧
    ∀ s, assertValidHost s = .ok () ↔ hostSpecWellFormed s := by
  refine ⟨by decide, by decide, by decide, fun s => ?_⟩
  unfold assertValidHost hostSpecWellFormed
  by_cases hs : s = ""
  · subst hs
    constructor
    · intro h
      simp at h
    · intro h
      have he : jsSplit '@' "" = [""] := rfl
      rw [he] at h
      exact absurd rfl h.1
  · rw [if_neg hs]
    cases hsp : jsSplit '@' s with
    | nil => simp
    | cons x t =>
      cases t with
      | nil =>
        dsimp only
        by_cases hx : (x != "" && x.data.all hostnameCharOk) = true
        · rw [if_pos hx]
          simp only [Bool.and_eq_true, bne_iff_ne] at hx
          simp [hx.1, hx.2]
        · rw [if_neg hx]
          simp only [Bool.and_eq_true, bne_iff_ne, not_and_or] at hx
          constructor
          · intro h
            simp at h
          · rintro ⟨h1, h2⟩
            rcases hx with hx | hx
            · simp at hx
              exact absurd hx h1
            · exact absurd h2 hx
      | cons y t2 =>
        cases t2 with
        | nil =>
          dsimp only
          by_cases hxy : (x == "" || y == "") = true
          · rw [if_pos hxy]
            simp only [Bool.or_eq_true, beq_iff_eq] at hxy
            constructor
            · intro h
              simp at h
            · rintro ⟨h1, _, h3, _⟩
              rcases hxy with hxy | hxy
              · exact absurd hxy h1
              · exact absurd hxy h3
          · rw [if_neg hxy]
            simp only [Bool.or_eq_true, beq_iff_eq, not_or] at hxy
            by_cases hu : x.data.all userCharOk = true
            · rw [hu]
              simp only [Bool.not_true, if_neg (by simp : ¬ (false = true))]
              by_cases hh : y.data.all hostnameCharOk = true
              · rw [hh]
                simp [hxy.1, hxy.2, hu, hh]
              · simp only [Bool.not_eq_true] at hh
                rw [hh]
                simp only [Bool.not_false, if_pos rfl]
                constructor
                · intro h
                  simp at h
                · rintro ⟨_, _, _, h4⟩
                  exact absurd h4 (by simp)
            · simp only [Bool.not_eq_true] at hu
              rw [hu]
              simp only [Bool.not_false, if_pos rfl]
              constructor
              · intro h
                simp at h
              · rintro ⟨_, h2, _, _⟩
                exact absurd h2 (by simp)
        | cons z t3 => simp

theorem resolveInRemotes_validates (target aliasName : String)
    (l : List (String × RemoteConfig)) (h : String)
    (hres : resolveInRemotes target aliasName l = .ok (some h)) :
    assertValidHost h = .ok () := by
  induction l with
  | nil => simp [resolveInRemotes] at hres
  | cons p rest ih =>
    obtain ⟨name, rc⟩ := p
    unfold resolveInRemotes at hres
    by_cases h1 : (("@" ++ name) == aliasName) = true
    · rw [if_pos h1] at hres
      cases hv : assertValidHost rc.host with
      | error e => rw [hv] at hres; cases hres
      | ok u =>
        rw [hv] at hres
        cases hres
        cases u
        exact hv
    · rw [if_neg h1] at hres
      by_cases h2 : ((rc.alias'.getD []).any
          (fun a => (if jsStartsWith a "@" then a else "@" ++ a) == aliasName)) = true
      · rw [if_pos h2] at hres
        cases hv : assertValidHost rc.host with
        | error e => rw [hv] at hres; cases hres
        | ok u =>
          rw [hv] at hres
          cases hres
          cases u
          exact hv
      · rw [if_neg h2] at hres
        exact ih hres

theorem resolveInRemotes_never_ok_none (target aliasName : String)
    (l : List (String × RemoteConfig)) :
    resolveInRemotes target aliasName l ≠ .ok none := by
  induction l with
  | nil => simp [resolveInRemotes]
  | cons p rest ih =>
    obtain ⟨name, rc⟩ := p
    unfold resolveInRemotes
    by_cases h1 : (("@" ++ name) == aliasName) = true
    · rw [if_pos h1]
      cases hv : assertValidHost rc.host <;> simp
    · rw [if_neg h1]
      by_cases h2 : ((rc.alias'.getD []).any
          (fun a => (if jsStartsWith a "@" then a else "@" ++ a) == aliasName)) = true
      · rw [if_pos h2]
        cases hv : assertValidHost rc.host <;> simp
      · rw [if_neg h2]
        exact ih

/-- `listRemotes` (`src/config.ts` lines 158-161): the remote registry
exactly as loaded from the on-disk config — no validation is applied. -/
def listRemotes (cfg : Config) : List (String × RemoteConfig) :=
  cfg.remotes

/-- `testSSHConnection` (`src/deploy/remote.ts` lines 21-28): the
connectivity probe composes this ssh command directly from the host
string it is handed. -/
def testSSHConnectionCmd (host : String) : String :=
  "ssh -o BatchMode=yes -o ConnectTimeout=5 " ++ host ++ " \"echo ok\""

/-- The remote-status loop of the `ls` and `status` CLI commands
(`unnamed/part_006` lines 489-494 and 606-609): for every entry of
`listRemotes()`, `getRemoteHostStatus(config.host)` is called, whose
first step composes the `testSSHConnection` ssh command from the raw
registry host (`src/deploy/remote.ts` lines 310-322).  This lists, in
registry order, the ssh command strings that loop builds; no
`assertValidHost` call occurs anywhere on this path. -/
def remoteStatusProbeCmds (cfg : Config) : List String :=
  (listRemotes cfg).map (fun p => testSSHConnectionCmd p.2.host)

/-- A registry holding a malformed host spec, as a hand-edited
`config.toml` can: the host contains a space and fails the grammar. -/
def badRegistryCfg : Config :=
  ⟨"local", [("bad", ⟨"user@bad host", none⟩)]⟩

/-- Counterexample to C6 as stated: composing ssh commands is not gated
on the grammar check everywhere.  The `ls`/`status` remote loop builds
its connectivity-probe ssh command from the registry host `user@bad host`
— a spec the validator rejects — with `assertValidHost` never called on
that path, so an unvalidated, malformed host spec does reach an ssh
command string. -/
theorem unvalidated_host_reaches_ssh_composition :
    remoteStatusProbeCmds badRegistryCfg =
      ["ssh -o BatchMode=yes -o ConnectTimeout=5 user@bad host \"echo ok\""] ∧
    assertValidHost "user@bad host" = .error "Invalid host: user@bad host" := by
  exact ⟨rfl, by decide⟩

/-- C6 as amended: a host string that reaches command composition through
`resolveTarget` has always passed the host-spec grammar check — a spec
failing the check can only produce the fatal error there, never a
resolved host.  (The `ls`/`status` remote loop, by contrast, composes
its probe commands from unvalidated registry hosts, as the
counterexample shows.) -/
theorem resolveTarget_only_validated_hosts (cfg : Config) (target? : Option String)
    (h : String) (hres : resolveTarget cfg target? = .ok (some h)) :
    assertValidHost h = .ok () := by
  unfold resolveTarget at hres
  by_cases h1 : (jsEffectiveTarget cfg target? == "local") = true
  · rw [if_pos h1] at hres
    cases hres
  · rw [if_neg h1] at hres
    by_cases h2 : ((jsEffectiveTarget cfg target?).data.contains '@' &&
        !(jsStartsWith (jsEffectiveTarget cfg target?) "@")) = true
    · rw [if_pos h2] at hres
      cases hv : assertValidHost (jsEffectiveTarget cfg target?) with
      | error e => rw [hv] at hres; cases hres
      | ok u =>
        rw [hv] at hres
        cases hres
        cases u
        exact hv
    · rw [if_neg h2] at hres
      exact resolveInRemotes_validates _ _ _ _ hres

/-- Witness for C6: resolving the registered remote `dev` yields the host
`user@192.168.1.100`, which has passed the grammar check. -/
theorem resolveTarget_only_validated_hosts_witness :
    assertValidHost "user@192.168.1.100" = .ok () :=
  resolveTarget_only_validated_hosts
    ⟨"local", [("dev", ⟨"user@192.168.1.100", none⟩)]⟩ (some "@dev")
    "user@192.168.1.100" (by decide)

/-- C8: resolving `@nonexistent` against an empty remote registry fails
fast with the `Unknown remote` error rather than falling back to local,
and the local marker (`.ok none`, the source's `null`) is produced only
when the effective target is exactly `local`. -/
theorem resolveTarget_unknown_remote_fails :
    resolveTarget ⟨"local", []⟩ (some "@nonexistent") =
      .error "Unknown remote: @nonexistent" ∧
    ∀ (cfg : Config) (target? : Option String),
      resolveTarget cfg target? = .ok none → jsEffectiveTarget cfg target? = "local" := by
  refine ⟨by decide, fun cfg target? hres => ?_⟩
  unfold resolveTarget at hres
  by_cases h1 : (jsEffectiveTarget cfg target? == "local") = true
  · exact beq_iff_eq.mp h1
  · rw [if_neg h1] at hres
    by_cases h2 : ((jsEffectiveTarget cfg target?).data.contains '@' &&
        !(jsStartsWith (jsEffectiveTarget cfg target?) "@")) = true
    · rw [if_pos h2] at hres
      cases hv : assertValidHost (jsEffectiveTarget cfg target?) with
      | error e => rw [hv] at hres; cases hres
      | ok u => rw [hv] at hres; cases hres
    · rw [if_neg h2] at hres
      exact absurd hres (resolveInRemotes_never_ok_none _ _ _)

/-- Witness for C8: the explicit target `local` resolves to the local
marker, and its effective target is `local`. -/
theorem resolveTarget_unknown_remote_fails_witness :
    jsEffectiveTarget ⟨"local", []⟩ (some "local") = "local" :=
  resolveTarget_unknown_remote_fails.2 ⟨"local", []⟩ (some "local") (by decide)

/-! ### Execution context abstraction (`src/deploy/executor.ts`) -/

/-- `ExecOptions.stdio`: `"pipe"` (default) or `"inherit"`. -/
inductive Stdio where
  | pipe
  | inherit
deriving DecidableEq, Repr

/-- `ExecOptions` (`src/deploy/executor.ts` lines 3-6); the source
defaults are `stdio: "pipe"`, `ignoreError: false`, and every embedded
call site passes the value the source call resolves to. -/
structure ExecOptions where
  stdio : Stdio
  ignoreError : Bool
deriving DecidableEq, Repr

/-- `CommandFailed`: what Node's `execSync` throws on a nonzero exit. -/
structure CmdError where
  exitCode : Int
  stderr : String
deriving DecidableEq, Repr

/-- The operating system seen by `execSync`: for a working directory
(`none` when the call passes no `cwd`) and a command string, either the
command's stdout or a failure. -/
def Behavior : Type := Option String → String → Except CmdError String

/-- Node's `execSync(cmd, {cwd, stdio})`: on success the captured stdout
in `"pipe"` mode and `null` (here `none`) in `"inherit"` mode, where the
output goes to the terminal instead; on failure it throws. -/
def execSyncModel (behavior : Behavior) (cwd : Option String) (cmd : String)
    (stdio : Stdio) : Except CmdError (Option String) :=
  match behavior cwd cmd with
  | .error e => .error e
  | .ok out =>
    match stdio with
    | .pipe => .ok (some out)
    | .inherit => .ok none

/-- `result?.trim() || ""` (`src/deploy/executor.ts` line 28). -/
def jsResultOrEmpty (r : Option String) : String :=
  match r with
  | some s => jsTrim s
  | none => ""

namespace LocalExecutor

/-- `LocalExecutor.exec` (`src/deploy/executor.ts` lines 20-33): run the
command in the working directory; return the trimmed output (empty in
inherit mode); on failure return `""` when `ignoreError` is set, else
rethrow. -/
def exec (behavior : Behavior) (workDir cmd : String) (opts : ExecOptions) :
    Except CmdError String :=
  match execSyncModel behavior (some workDir) cmd opts.stdio with
  | .ok r => .ok (jsResultOrEmpty r)
  | .error e => if opts.ignoreError then .ok "" else .error e

end LocalExecutor

/-- `cd ${this.workDir} && ${cmd}` (`src/deploy/executor.ts` line 50). -/
def remoteCommand (workDir cmd : String) : String :=
  "cd " ++ workDir ++ " && " ++ cmd

/-- `ssh ${this.host} "${remoteCmd.replace(/"/g, '\\"')}"`
(`src/deploy/executor.ts` line 51). -/
def sshCommand (host remoteCmd : String) : String :=
  "ssh " ++ host ++ " \"" ++ escapeDoubleQuotes remoteCmd ++ "\""

namespace RemoteExecutor

/-- `RemoteExecutor.exec` (`src/deploy/executor.ts` lines 48-63): wrap the
command in an ssh invocation against the host (no `cwd` is passed to
`execSync`), then behave like the local variant. -/
def exec (behavior : Behavior) (host workDir cmd : String) (opts : ExecOptions) :
    Except CmdError String :=
  match execSyncModel behavior none (sshCommand host (remoteCommand workDir cmd)) opts.stdio with
  | .ok r => .ok (jsResultOrEmpty r)
  | .error e => if opts.ignoreError then .ok "" else .error e

end RemoteExecutor

/-- C10: for both executors, `exec` with stdio `"inherit"` returns the
empty string even when the command succeeds with output, because Node's
`execSync` captures nothing in inherit mode; the command's (trimmed)
output is returned only in the default `"pipe"` mode. -/
theorem exec_inherit_returns_empty (behavior : Behavior)
    (host workDir cmd out : String) (ie : Bool) :
    (behavior (some workDir) cmd = .ok out →
      LocalExecutor.exec behavior workDir cmd ⟨Stdio.inherit, ie⟩ = .ok "" ∧
      LocalExecutor.exec behavior workDir cmd ⟨Stdio.pipe, ie⟩ = .ok (jsTrim out)) ∧
    (behavior none (sshCommand host (remoteCommand workDir cmd)) = .ok out →
      RemoteExecutor.exec behavior host workDir cmd ⟨Stdio.inherit, ie⟩ = .ok "" ∧
      RemoteExecutor.exec behavior host workDir cmd ⟨Stdio.pipe, ie⟩ = .ok (jsTrim out)) := by
  constructor
  · intro h
    constructor
    · simp [LocalExecutor.exec, execSyncModel, h, jsResultOrEmpty]
    · simp [LocalExecutor.exec, execSyncModel, h, jsResultOrEmpty]
  · intro h
    constructor
    · simp [RemoteExecutor.exec, execSyncModel, h, jsResultOrEmpty]
    · simp [RemoteExecutor.exec, execSyncModel, h, jsResultOrEmpty]

/-- Witness for C10: a command succeeding with output `"hello\n"` yields
`""` in inherit mode and `"hello"` in pipe mode, on both executors. -/
theorem exec_inherit_returns_empty_witness :
    LocalExecutor.exec (fun _ _ => .ok "hello\n") "/work" "echo hello"
        ⟨Stdio.inherit, false⟩ = .ok "" ∧
    LocalExecutor.exec (fun _ _ => .ok "hello\n") "/work" "echo hello"
        ⟨Stdio.pipe, false⟩ = .ok "hello" ∧
    RemoteExecutor.exec (fun _ _ => .ok "hello\n") "user@192.168.1.100" "~/.ccc"
        "echo hello" ⟨Stdio.inherit, false⟩ = .ok "" := by
  have h := exec_inherit_returns_empty (fun _ _ => .ok "hello\n")
    "user@192.168.1.100" "/work" "echo hello" "hello\n" false
  have h2 := exec_inherit_returns_empty (fun _ _ => .ok "hello\n")
    "user@192.168.1.100" "~/.ccc" "echo hello" "hello\n" false
  refine ⟨(h.1 rfl).1, ?_, (h2.2 rfl).1⟩
  have := (h.1 rfl).2
  simpa using this

/-! ### Container lifecycle manager (`ContainerManager` in `src/config.ts`) -/

/-- `ContainerStatus` (`src/config.ts` lines 185-191); the source field
`exists` is a Lean keyword and is embedded as `exists'`. -/
structure ContainerStatus where
  exists' : Bool
  running : Bool
  takopi : Bool
  sessions : List String
  agents : List String
deriving DecidableEq, Repr

/-- The all-negative initial status value (`src/config.ts` lines 268-274). -/
def emptyStatus : ContainerStatus :=
  ⟨false, false, false, [], []⟩

/-- One observable probe made by `getStatus`: an `executor.exec` call, or
a `checkAgentInstalled` call for one agent. -/
inductive Call where
  | execCall (cmd : String)
  | agentCheck (agent : String)
deriving DecidableEq, Repr

/-- The `Executor.exec` contract (`src/deploy/executor.ts` lines 8-13),
abstracted over any implementation. -/
def ExecFn : Type := String → ExecOptions → Except CmdError String

/-- The probe context `getStatus` runs against: the executor, the enabled
agents (`loadAgents()` entries order), and each agent's install-probe
outcome. -/
structure ProbeCtx where
  exec : ExecFn
  agents : List String
  agentProbe : String → Except CmdError Bool

/-- `docker inspect -f '{{.State.Running}}' <name> 2>/dev/null`
(`src/config.ts` line 278). -/
def inspectCmd (containerName : String) : String :=
  "docker inspect -f '\x7b\x7b.State.Running\x7d\x7d' " ++ containerName ++ " 2>/dev/null"

/-- `docker exec <name> pgrep -f takopi >/dev/null 2>&1`
(`src/config.ts` line 293). -/
def pgrepCmd (containerName : String) : String :=
  "docker exec " ++ containerName ++ " pgrep -f takopi >/dev/null 2>&1"

/-- `docker exec <name> shpool list 2>/dev/null` (`src/config.ts` line 302). -/
def shpoolListCmd (containerName : String) : String :=
  "docker exec " ++ containerName ++ " shpool list 2>/dev/null"

/-- `docker exec <name> shpool kill <session>` (`src/config.ts` line 353). -/
def killCmd (containerName sessionName : String) : String :=
  "docker exec " ++ containerName ++ " shpool kill " ++ sessionName

/-- Session-list parsing (`src/config.ts` lines 306-309): trim, split on
newlines, drop empty lines, skip the header line, take each line's first
whitespace-delimited token, drop empty tokens. -/
def parseSessions (out : String) : List String :=
  let lines := (jsSplit '\n' (jsTrim out)).filter (fun l => l != "")
  ((lines.drop 1).map jsFirstWsToken).filter (fun t => t != "")

/-- Modelled from the spec: `checkAgentInstalled` lives in
`src/agents/auth.ts`, which is not under `src/` (only its callers are).
Per the spec's status-reconciliation contract, a per-agent install probe
failure yields `installed:false` and never propagates. -/
def checkAgentInstalled (probe : Except CmdError Bool) : Bool :=
  match probe with
  | .ok b => b
  | .error _ => false

/-- `ContainerManager.getStatus` (`src/config.ts` lines 267-325), with an
instrumented trace of the probes it performs.  Each `try/catch` of the
source is an explicit match on the probe outcome; the outer `Except` is
the exception channel of the method itself. -/
def getStatus (ctx : ProbeCtx) (containerName : String) :
    Except CmdError (ContainerStatus × List Call) :=
  let tr0 := [Call.execCall (inspectCmd containerName)]
  match ctx.exec (inspectCmd containerName) ⟨Stdio.pipe, true⟩ with
  | .error _ => .ok (emptyStatus, tr0)
  | .ok result =>
    let st :=
      if result != "" then
        { emptyStatus with exists' := true, running := jsTrim result == "true" }
      else emptyStatus
    if !st.running then .ok (st, tr0)
    else
      let takopi :=
        match ctx.exec (pgrepCmd containerName) ⟨Stdio.pipe, false⟩ with
        | .ok _ => true
        | .error _ => false
      let sessions :=
        match ctx.exec (shpoolListCmd containerName) ⟨Stdio.pipe, true⟩ with
        | .error _ => []
        | .ok out => if out != "" then parseSessions out else []
      let agents := ctx.agents.filter (fun n => checkAgentInstalled (ctx.agentProbe n))
      .ok ({ st with takopi := takopi, sessions := sessions, agents := agents },
        tr0 ++ [Call.execCall (pgrepCmd containerName),
                Call.execCall (shpoolListCmd containerName)] ++
          ctx.agents.map Call.agentCheck)

/-- `ContainerManager.killSession` (`src/config.ts` lines 352-358): one
`executor.exec` in inherit mode, no `ignoreError`, no `try/catch`. -/
def killSession (ex : ExecFn) (containerName sessionName : String) :
    Except CmdError Unit :=
  match ex (killCmd containerName sessionName) ⟨Stdio.inherit, false⟩ with
  | .error e => .error e
  | .ok _ => .ok ()

/-- C3: once the inspection probe has confirmed the container running,
`getStatus` never fails — it returns a status for every probe context —
and in particular a throwing session-listing probe is swallowed into
`running:true` with `sessions:[]`. -/
theorem getStatus_fail_soft :
    (∀ (ctx : ProbeCtx) (n : String), ∃ r, getStatus ctx n = .ok r) ∧
    ∀ (ctx : ProbeCtx) (n : String) (e : CmdError),
      ctx.exec (inspectCmd n) ⟨Stdio.pipe, true⟩ = .ok "true" →
      ctx.exec (shpoolListCmd n) ⟨Stdio.pipe, true⟩ = .error e →
      ∃ st tr, getStatus ctx n = .ok (st, tr) ∧ st.running = true ∧ st.sessions = [] := by
  constructor
  · intro ctx n
    unfold getStatus
    cases hc : ctx.exec (inspectCmd n) ⟨Stdio.pipe, true⟩ with
    | error e => exact ⟨_, rfl⟩
    | ok result =>
      dsimp only
      split
      all_goals try split
      all_goals exact ⟨_, rfl⟩
  · intro ctx n e h1 h2
    unfold getStatus
    rw [h1, h2]
    exact ⟨_, _, rfl, rfl, rfl⟩

/-- The concrete probe context of the C3 witness: the container inspects
as running, the `takopi` probe succeeds, the session-listing probe
throws, the one enabled agent's install probe throws. -/
def failSoftCtx : ProbeCtx where
  exec := fun cmd _ =>
    if cmd = inspectCmd "ccc" then .ok "true"
    else if cmd = shpoolListCmd "ccc" then .error ⟨1, "shpool not ready"⟩
    else .ok ""
  agents := ["claude"]
  agentProbe := fun _ => .error ⟨1, "probe failed"⟩

/-- Witness for C3: against `failSoftCtx` the status call returns
`running:true` with `sessions:[]` instead of propagating the
session-probe exception. -/
theorem getStatus_fail_soft_witness :
    ∃ st tr, getStatus failSoftCtx "ccc" = .ok (st, tr) ∧
      st.running = true ∧ st.sessions = [] :=
  getStatus_fail_soft.2 failSoftCtx "ccc" ⟨1, "shpool not ready"⟩ rfl rfl

/-- C4: `getStatus` short-circuits — a failing inspection probe returns
the canonical all-false status without raising, and a container that is
not running returns immediately with every other field empty; in both
cases the probe trace holds exactly the one inspection call, so no
sub-probe (no session listing, no companion-process check, no agent
install check) is performed. -/
theorem getStatus_short_circuit (ctx : ProbeCtx) (n : String) :
    (∀ e, ctx.exec (inspectCmd n) ⟨Stdio.pipe, true⟩ = .error e →
      getStatus ctx n = .ok (emptyStatus, [Call.execCall (inspectCmd n)])) ∧
    ∀ r, ctx.exec (inspectCmd n) ⟨Stdio.pipe, true⟩ = .ok r →
      (jsTrim r == "true") = false →
      ∃ st, getStatus ctx n = .ok (st, [Call.execCall (inspectCmd n)]) ∧
        st.running = false ∧ st.takopi = false ∧ st.sessions = [] ∧
        st.agents = [] ∧ st.exists' = (r != "") := by
  constructor
  · intro e h
    unfold getStatus
    rw [h]
  · intro r h hr
    unfold getStatus
    rw [h]
    dsimp only
    by_cases hre : (r != "") = true
    · rw [if_pos hre]
      refine ⟨⟨true, jsTrim r == "true", false, [], []⟩, ?_, hr, rfl, rfl, rfl, ?_⟩
      · simp [hr, emptyStatus]
      · simp [hre]
    · rw [if_neg hre]
      refine ⟨emptyStatus, ?_, rfl, rfl, rfl, rfl, ?_⟩
      · simp [emptyStatus]
      · simp only [Bool.not_eq_true] at hre
        simp [emptyStatus, hre]

/-- The concrete probe context of the C4 witness: the container does not
exist, so the inspection probe throws. -/
def absentCtx : ProbeCtx where
  exec := fun _ _ => .error ⟨1, "No such object: ccc"⟩
  agents := ["claude"]
  agentProbe := fun _ => .ok true

/-- Witness for C4: against `absentCtx` the status call returns the
canonical all-false status and its probe trace is the single inspection
call — no sub-probe ran. -/
theorem getStatus_short_circuit_witness :
    getStatus absentCtx "ccc" = .ok (emptyStatus, [Call.execCall (inspectCmd "ccc")]) :=
  (getStatus_short_circuit absentCtx "ccc").1 ⟨1, "No such object: ccc"⟩ rfl

/-- C9: `killSession` propagates the underlying executor's error when the
kill command fails — the failure is surfaced to the caller, not swallowed
or downgraded to an empty result. -/
theorem killSession_propagates_error (ex : ExecFn) (containerName sessionName : String)
    (e : CmdError)
    (h : ex (killCmd containerName sessionName) ⟨Stdio.inherit, false⟩ = .error e) :
    killSession ex containerName sessionName = .error e := by
  unfold killSession
  rw [h]

/-- Witness for C9: an executor whose kill command fails (the session
does not exist) makes `killSession` fail with that same error. -/
theorem killSession_propagates_error_witness :
    killSession (fun _ _ => .error ⟨1, "not found: session nope"⟩) "ccc" "nope" =
      .error ⟨1, "not found: session nope"⟩ :=
  killSession_propagates_error _ "ccc" "nope" ⟨1, "not found: session nope"⟩ rfl

end CCC
